import Mathlib

/-!
Verification development for the catbox-memory-lru cache client
(src/lib/index.js): a size-bounded, time-expiring in-memory key/value
store.  The JavaScript source is embedded shallowly: plain values become
members of an inductive type of JavaScript values, the lru-cache container
becomes an association list in recency order, Node timers become an
explicit list of timer records, and each Connection prototype method
becomes a state-passing function.
-/

namespace CatboxMemoryLru

/-- JavaScript values as far as the cache observes them.  Numbers are
modelled as integers plus a distinguished NaN token (no numeric
arithmetic occurs in the source); Node Buffer values are byte lists. -/
inductive JSVal where
  | undefined
  | null
  | bool (b : Bool)
  | num (n : Int)
  | nan
  | str (s : String)
  | buffer (bytes : List Nat)
  | arr (elems : List JSVal)
  | obj (fields : List (String × JSVal))

/-- Parse trees of valid JSON texts.  The platform pair
JSON.stringify / JSON.parse is a bijection between these trees and the
strings it produces, so a stored JSON string is represented by its tree. -/
inductive Json where
  | null
  | bool (b : Bool)
  | num (n : Int)
  | str (s : String)
  | arr (elems : List Json)
  | obj (fields : List (String × Json))

mutual

/-- JSON.stringify on a JavaScript value, up to the text layer: none when
stringify yields no string (top-level undefined).  NaN stringifies to the
null literal; a Buffer stringifies through its toJSON form. -/
def jsonify : JSVal → Option Json
  | .undefined => none
  | .null => some .null
  | .bool b => some (.bool b)
  | .num n => some (.num n)
  | .nan => some .null
  | .str s => some (.str s)
  | .buffer bytes =>
    some (.obj [("type", .str "Buffer"), ("data", .arr (bytes.map fun b => .num (Int.ofNat b)))])
  | .arr es => some (.arr (jsonifyElems es))
  | .obj fs => some (.obj (jsonifyFields fs))

/-- Array elements that stringify to nothing are encoded as null. -/
def jsonifyElems : List JSVal → List Json
  | [] => []
  | v :: vs => ((jsonify v).getD .null) :: jsonifyElems vs

/-- Object fields whose value stringifies to nothing are dropped. -/
def jsonifyFields : List (String × JSVal) → List (String × Json)
  | [] => []
  | (k, v) :: fs =>
    match jsonify v with
    | some j => (k, j) :: jsonifyFields fs
    | none => jsonifyFields fs

end

mutual

/-- JSON.parse composed with the tree representation: every JSON tree
denotes a plain JavaScript value. -/
def jsonToJS : Json → JSVal
  | .null => .null
  | .bool b => .bool b
  | .num n => .num n
  | .str s => .str s
  | .arr es => .arr (jsonToJSElems es)
  | .obj fs => .obj (jsonToJSFields fs)

def jsonToJSElems : List Json → List JSVal
  | [] => []
  | j :: js => jsonToJS j :: jsonToJSElems js

def jsonToJSFields : List (String × Json) → List (String × JSVal)
  | [] => []
  | (k, j) :: fs => (k, jsonToJS j) :: jsonToJSFields fs

end

mutual

/-- Values built only from null, booleans, numbers, strings, arrays and
objects: no undefined, NaN or Buffer anywhere in the tree. -/
def isPure : JSVal → Bool
  | .undefined => false
  | .nan => false
  | .buffer _ => false
  | .null => true
  | .bool _ => true
  | .num _ => true
  | .str _ => true
  | .arr es => isPureElems es
  | .obj fs => isPureFields fs

def isPureElems : List JSVal → Bool
  | [] => true
  | v :: vs => isPure v && isPureElems vs

def isPureFields : List (String × JSVal) → Bool
  | [] => true
  | (_, v) :: fs => isPure v && isPureFields fs

end

/-- The stored payload: a copied Buffer in mixed-content mode, a JSON
text (represented by its tree) otherwise, or the undefined non-string
that JSON.stringify returns for an unencodable value. -/
inductive Payload where
  | buf (bytes : List Nat)
  | text (j : Json)
  | undefined

/-- internals.serialize: in mixed-content mode a Buffer value is copied
byte for byte (value semantics make the copy implicit here; the heap
model below makes the allocation explicit); every other value goes
through JSON.stringify. -/
def serialize (value : JSVal) (allowMixedContent : Bool) : Payload :=
  match allowMixedContent, value with
  | true, .buffer bytes => .buf bytes
  | _, _ =>
    match jsonify value with
    | some j => .text j
    | none => .undefined

/-- internals.deserialize: a Buffer payload is returned as the value
itself; otherwise the payload is parsed as JSON, and a parse failure is
reported as an error value. -/
def deserialize : Payload → Except Unit JSVal
  | .buf bytes => .ok (.buffer bytes)
  | .text j => .ok (jsonToJS j)
  | .undefined => .error ()

/-- Envelope: the stored record (internals.Envelope). -/
structure Envelope where
  item : Payload
  stored : Int
  ttl : Int
  timeoutId : Option Nat

mutual

/-- Byte length of the canonical JSON text of a tree, standing for
Buffer.byteLength of the stringified payload.  String escaping and
multi-byte characters are not modelled; no theorem below depends on the
exact weights, only on the trim loop they drive. -/
def jsonLength : Json → Nat
  | .null => 4
  | .bool true => 4
  | .bool false => 5
  | .num n => (toString n).length
  | .str s => s.length + 2
  | .arr es => jsonLengthElems es + 2
  | .obj fs => jsonLengthFields fs + 2

def jsonLengthElems : List Json → Nat
  | [] => 0
  | [j] => jsonLength j
  | j :: js => jsonLength j + 1 + jsonLengthElems js

def jsonLengthFields : List (String × Json) → Nat
  | [] => 0
  | [(k, j)] => k.length + 3 + jsonLength j
  | (k, j) :: fs => k.length + 3 + jsonLength j + 1 + jsonLengthFields fs

end

/-- internals.defaults.lru.length: the weigher handed to lru-cache — the
byte length of a Buffer payload, Buffer.byteLength of a string payload. -/
def envelopeLength (envelope : Envelope) : Nat :=
  match envelope.item with
  | .buf bytes => bytes.length
  | .text j => jsonLength j
  | .undefined => 9

/-- Modelled from the spec: the Bounded Store capability (lru-cache, an
external dependency): a capacity-weighted key/value container, held as an
association list in recency order with the most recently used entry
first. -/
structure LRUCache where
  max : Nat
  entries : List (String × Envelope)

/-- Total resident weight of a list of entries under the weigher. -/
def lruTotal (es : List (String × Envelope)) : Nat :=
  (es.map fun e => envelopeLength e.2).sum

/-- One trimming pass with explicit fuel: drop least recently used
entries from the tail until the total weight fits the capacity.  Each
step removes one entry, so fuel equal to the list length suffices. -/
def lruTrimFuel : Nat → Nat → List (String × Envelope) → List (String × Envelope)
  | 0, _, es => es
  | fuel + 1, maxWeight, es =>
    if lruTotal es ≤ maxWeight then es
    else lruTrimFuel fuel maxWeight es.dropLast

/-- Modelled from the spec: max-weight eviction of least recently used
entries, run by the container after every insertion. -/
def lruTrim (maxWeight : Nat) (es : List (String × Envelope)) : List (String × Envelope) :=
  lruTrimFuel es.length maxWeight es

/-- Modelled from the spec: lookup without touching recency. -/
def lruPeek (c : LRUCache) (k : String) : Option Envelope :=
  (c.entries.find? fun e => e.1 == k).map (fun e => e.2)

/-- Modelled from the spec: lookup that moves the found entry to the
most recently used position. -/
def lruGet (c : LRUCache) (k : String) : Option Envelope × LRUCache :=
  match c.entries.find? fun e => e.1 == k with
  | none => (none, c)
  | some e => (some e.2, { c with entries := e :: c.entries.filter fun e2 => !(e2.1 == k) })

/-- Modelled from the spec: insert or replace at the most recently used
position, then evict from the least recently used end while the total
weight exceeds the capacity. -/
def lruSet (c : LRUCache) (k : String) (v : Envelope) : LRUCache :=
  { c with entries := lruTrim c.max ((k, v) :: c.entries.filter fun e => !(e.1 == k)) }

/-- Modelled from the spec: unconditional removal by key. -/
def lruDel (c : LRUCache) (k : String) : LRUCache :=
  { c with entries := c.entries.filter fun e => !(e.1 == k) }

/-- A Node timer as armed by setTimeout in Connection.prototype.set: the
raw key captured by the fire closure, the absolute fire instant, and the
cancelled / fired flags maintained by the runtime. -/
structure Timer where
  key : String × String
  fireAt : Int
  cancelled : Bool
  fired : Bool

/-- Node clearTimeout: marks the addressed timer cancelled; a stale or
unknown handle is ignored. -/
def clearTimeout (timers : List Timer) (tid : Nat) : List Timer :=
  match timers[tid]? with
  | none => timers
  | some t => timers.set tid { t with cancelled := true }

/-- Connection settings after Hoek.applyToDefaults (internals.defaults). -/
structure Settings where
  allowMixedContent : Bool
  lruMax : Nat

/-- internals.defaults: mixed content off, 100MB capacity. -/
def defaults : Settings :=
  { allowMixedContent := false, lruMax := 100 * 1024 * 1024 }

/-- The Connection instance state plus the ambient timer table and
clock.  cache = none models this.cache === null (not started). -/
structure ConnState where
  settings : Settings
  cache : Option LRUCache
  timers : List Timer
  now : Int

/-- State right after the constructor ran: no cache, no timers. -/
def initState (settings : Settings) : ConnState :=
  { settings := settings, cache := none, timers := [], now := 0 }

/-- The error values the Connection reports through its callbacks. -/
inductive CacheError where
  | connectionNotStarted
  | invalidTTL
  | badValueContent

/-- The result object built by Connection.prototype.get. -/
structure GetResult where
  item : JSVal
  stored : Int
  ttl : Int

/-- CacheKey as handed in by the policy layer. -/
structure CacheKey where
  segment : String
  id : String
deriving DecidableEq

namespace Connection

/-- Connection.prototype.generateKey: plain concatenation with a colon. -/
def generateKey (key : CacheKey) : String :=
  key.segment ++ ":" ++ key.id

/-- Connection.prototype.validateSegmentName: rejects the empty name and
names containing the NUL character; some carries the error message. -/
def validateSegmentName (name : String) : Option String :=
  if name = "" then some "Empty string"
  else if name.data.contains (Char.ofNat 0) then some "Includes null character"
  else none

/-- Connection.prototype.start: idempotently allocates the store. -/
def start (s : ConnState) : ConnState :=
  match s.cache with
  | some _ => s
  | none => { s with cache := some { max := s.settings.lruMax, entries := [] } }

/-- Connection.prototype.stop: dereferences this.cache unconditionally,
so a stopped or never started connection throws (modelled as none);
otherwise every timer reachable from a resident envelope is cleared, the
store is reset and released. -/
def stop (s : ConnState) : Option ConnState :=
  match s.cache with
  | none => none
  | some c =>
    let timers := c.entries.foldl (fun ts e =>
      match e.2.timeoutId with
      | some tid => clearTimeout ts tid
      | none => ts) s.timers
    some { s with cache := none, timers := timers }

/-- Connection.prototype.isReady. -/
def isReady (s : ConnState) : Bool :=
  s.cache.isSome

/-- Connection.prototype.get. -/
def get (s : ConnState) (key : CacheKey) :
    Except CacheError (Option GetResult) × ConnState :=
  match s.cache with
  | none => (.error .connectionNotStarted, s)
  | some cache =>
    match lruGet cache (generateKey key) with
    | (none, cache2) => (.ok none, { s with cache := some cache2 })
    | (some envelope, cache2) =>
      match deserialize envelope.item with
      | .error _ => (.error .badValueContent, { s with cache := some cache2 })
      | .ok value =>
        (.ok (some { item := value, stored := envelope.stored, ttl := envelope.ttl }),
         { s with cache := some cache2 })

/-- Connection.prototype.set: guard the not-started and oversized-ttl
cases, build the Envelope, clear the timer of a still resident envelope
under the same key, arm a timer whose fire action drops the raw key
(Node clamps a delay below one millisecond to one), attach its handle,
and insert, which may evict under capacity pressure. -/
def set (s : ConnState) (key : CacheKey) (value : JSVal) (ttl : Int) :
    Except CacheError Unit × ConnState :=
  match s.cache with
  | none => (.error .connectionNotStarted, s)
  | some cache =>
    if ttl > 2147483647 then (.error .invalidTTL, s)
    else
      let timers :=
        match lruPeek cache (generateKey key) with
        | some cachedItem =>
          match cachedItem.timeoutId with
          | some tid => clearTimeout s.timers tid
          | none => s.timers
        | none => s.timers
      let envelope : Envelope :=
        { item := serialize value s.settings.allowMixedContent,
          stored := s.now, ttl := ttl, timeoutId := some timers.length }
      (.ok (),
       { s with
         cache := some (lruSet cache (generateKey key) envelope),
         timers := timers ++
           [{ key := (key.segment, key.id), fireAt := s.now + max ttl 1,
              cancelled := false, fired := false }] })

/-- Connection.prototype.drop: removes the entry from the store and
nothing else; in particular no clearTimeout happens here. -/
def drop (s : ConnState) (key : CacheKey) : Except CacheError Unit × ConnState :=
  match s.cache with
  | none => (.error .connectionNotStarted, s)
  | some cache =>
    (.ok (), { s with cache := some (lruDel cache (generateKey key)) })

/-- The runtime firing a due timer: a cancelled, already fired or not
yet due timer does nothing; otherwise the timer is consumed and its
closure runs self.drop on the captured key, ignoring the callback. -/
def fireTimer (s : ConnState) (tid : Nat) : ConnState :=
  match s.timers[tid]? with
  | none => s
  | some t =>
    if t.cancelled ∨ t.fired ∨ s.now < t.fireAt then s
    else
      (drop { s with timers := s.timers.set tid { t with fired := true } }
        { segment := t.key.1, id := t.key.2 }).2

/-- Advance the clock. -/
def advance (s : ConnState) (d : Int) : ConnState :=
  { s with now := s.now + d }

/-- The envelope currently resident under a key, without touching
recency: the observation the claims speak about. -/
def lookup (s : ConnState) (key : CacheKey) : Option Envelope :=
  match s.cache with
  | none => none
  | some c => lruPeek c (generateKey key)

end Connection

/-- Total resident weight of the allocated store, zero when stopped. -/
def residentWeight (s : ConnState) : Nat :=
  match s.cache with
  | none => 0
  | some c => lruTotal c.entries

/-- A heap of Buffer objects, making object identity explicit: a Buffer
value is a reference into the heap.  Used to state the aliasing claims
about the Serializer. -/
structure BufferHeap where
  bufs : List (List Nat)

/-- Read the bytes behind a reference. -/
def readBuffer (h : BufferHeap) (ref : Nat) : List Nat :=
  (h.bufs[ref]?).getD []

/-- A caller mutating the Buffer behind a reference in place. -/
def writeBuffer (h : BufferHeap) (ref : Nat) (bytes : List Nat) : BufferHeap :=
  { bufs := h.bufs.set ref bytes }

/-- internals.serialize, mixed-content Buffer branch, on the heap model:
new Buffer(value.length) allocates a fresh object and value.copy fills
it, so the stored payload is a new reference holding equal bytes. -/
def serializeBuffer (h : BufferHeap) (ref : Nat) : BufferHeap × Nat :=
  ({ bufs := h.bufs ++ [readBuffer h ref] }, h.bufs.length)

/-- internals.deserialize, Buffer branch, on the heap model: the code
returns the stored item itself, so the caller receives the stored
reference, not a copy. -/
def deserializeBuffer (storedRef : Nat) : Nat :=
  storedRef

/-- The envelope a set of the string a with ttl 100 stores at time 0. -/
def replEnvelope : Envelope :=
  { item := .text (.str "a"), stored := 0, ttl := 100, timeoutId := some 0 }

/-- The timer armed for that envelope. -/
def replTimer : Timer :=
  { key := ("s", "1"), fireAt := 100, cancelled := false, fired := false }

/-- A default-capacity store holding that envelope under s:1. -/
def replStore : LRUCache :=
  { max := 104857600, entries := [("s:1", replEnvelope)] }

/-- A started connection holding that envelope with its armed timer. -/
def replState : ConnState :=
  { settings := defaults, cache := some replStore, timers := [replTimer], now := 0 }

/-- An envelope whose payload does not deserialize, as left behind by a
manual injection of an undecodable payload. -/
def corruptEnvelope : Envelope :=
  { item := .undefined, stored := 0, ttl := 50, timeoutId := some 0 }

/-- A store holding the undecodable envelope under the key s:1. -/
def corruptStore : LRUCache :=
  { max := 100, entries := [("s:1", corruptEnvelope)] }

/-- A started connection whose store holds the undecodable envelope. -/
def corruptState : ConnState :=
  { settings := defaults, cache := some corruptStore,
    timers := [{ key := ("s", "1"), fireAt := 50, cancelled := false, fired := false }],
    now := 0 }

/-- Clearing a timeout does not change the number of timers. -/
theorem clearTimeout_length (timers : List Timer) (tid : Nat) :
    (clearTimeout timers tid).length = timers.length := by
  unfold clearTimeout
  cases h : timers[tid]? <;> simp

/-- Clearing a valid timeout marks exactly that timer cancelled. -/
theorem clearTimeout_getElem_self (timers : List Timer) (tid : Nat) (t : Timer)
    (h : timers[tid]? = some t) :
    (clearTimeout timers tid)[tid]? = some { t with cancelled := true } := by
  unfold clearTimeout
  rw [h]
  have hlt : tid < timers.length := (List.getElem?_eq_some_iff.mp h).1
  simp [List.getElem?_set_self', hlt]

/-- Deleting a key from the store makes it unobservable. -/
theorem lruPeek_lruDel_self (c : LRUCache) (k : String) :
    lruPeek (lruDel c k) k = none := by
  simp only [lruPeek, lruDel, Option.map_eq_none']
  rw [List.find?_eq_none]
  intro x hx
  have := (List.mem_filter.mp hx).2
  simp at this
  simp [this]

/-- C8: with no store allocated (before start, or after stop releases
it), get, set and drop each complete with the connection error and leave
the state untouched; stop always releases the store. -/
theorem not_started_guard (s : ConnState) (key : CacheKey) (value : JSVal) (ttl : Int)
    (h : s.cache = none) :
    Connection.get s key = (.error .connectionNotStarted, s) ∧
    Connection.set s key value ttl = (.error .connectionNotStarted, s) ∧
    Connection.drop s key = (.error .connectionNotStarted, s) ∧
    (∀ s0 s1 : ConnState, Connection.stop s0 = some s1 → s1.cache = none) := by
  refine ⟨?_, ?_, ?_, ?_⟩
  · simp [Connection.get, h]
  · simp [Connection.set, h]
  · simp [Connection.drop, h]
  · intro s0 s1 hstop
    cases h0 : s0.cache with
    | none => simp [Connection.stop, h0] at hstop
    | some c =>
      simp only [Connection.stop, h0, Option.some.injEq] at hstop
      rw [← hstop]

theorem not_started_guard_witness :
    (initState defaults).cache = none ∧
    Connection.get (initState defaults) ⟨"s", "1"⟩
      = (.error .connectionNotStarted, initState defaults) ∧
    Connection.set (initState defaults) ⟨"s", "1"⟩ (.str "x") 50
      = (.error .connectionNotStarted, initState defaults) ∧
    Connection.drop (initState defaults) ⟨"s", "1"⟩
      = (.error .connectionNotStarted, initState defaults) :=
  ⟨rfl,
   (not_started_guard (initState defaults) ⟨"s", "1"⟩ (.str "x") 50 rfl).1,
   (not_started_guard (initState defaults) ⟨"s", "1"⟩ (.str "x") 50 rfl).2.1,
   (not_started_guard (initState defaults) ⟨"s", "1"⟩ (.str "x") 50 rfl).2.2.1⟩

/-- C10: stop dereferences this.cache unconditionally, so it throws
(none) exactly when the connection is not started, and completes
exactly when a store is allocated. -/
theorem stop_none_iff_not_started (s : ConnState) :
    Connection.stop s = none ↔ s.cache = none := by
  cases h : s.cache <;> simp [Connection.stop, h]

/-- C1 fails on the code: drop removes the entry from the store but
never clears its timeout, so after a completed drop the timer armed for
the dropped envelope is still not cancelled, and once its delay elapses
it fires and removes whatever envelope then lives under the key — here
a newer envelope whose own ttl has not elapsed. -/
theorem drop_leaves_timer_armed :
    let k : CacheKey := ⟨"s", "1"⟩
    let s1 := (Connection.set (Connection.start (initState defaults)) k (.str "a") 100).2
    let s2 := (Connection.drop s1 k).2
    let s3 := (Connection.set s2 k (.str "b") 100000).2
    let s4 := Connection.fireTimer (Connection.advance s3 150) 0
    ((s1.timers[0]?).map Timer.cancelled = some false) ∧
    ((s2.timers[0]?).map Timer.cancelled = some false) ∧
    Connection.lookup s2 k = none ∧
    ((Connection.lookup s3 k).isSome = true) ∧
    Connection.lookup s4 k = none :=
  ⟨rfl, rfl, rfl, rfl, rfl⟩

/-- C2 fails on the code in its timer half: the store is instantiated
without any eviction callback, so an envelope evicted under capacity
pressure keeps its timer armed; the weight bound itself holds.  Here the
second insert evicts the first key, whose timer later fires and removes
the newer envelope stored under that key. -/
theorem eviction_leaves_timer_armed :
    let settings : Settings := { allowMixedContent := true, lruMax := 4 }
    let k1 : CacheKey := ⟨"s", "1"⟩
    let k2 : CacheKey := ⟨"s", "2"⟩
    let s0 := Connection.start (initState settings)
    let s1 := (Connection.set s0 k1 (.buffer [1, 2, 3]) 100).2
    let s2 := (Connection.set s1 k2 (.buffer [4, 5, 6]) 100).2
    let s3 := (Connection.set s2 k1 (.buffer [7, 8]) 100000).2
    let s4 := Connection.fireTimer (Connection.advance s3 150) 0
    Connection.lookup s2 k1 = none ∧
    ((Connection.lookup s2 k2).isSome = true) ∧
    residentWeight s1 ≤ 4 ∧ residentWeight s2 ≤ 4 ∧ residentWeight s3 ≤ 4 ∧
    ((s2.timers[0]?).map Timer.cancelled = some false) ∧
    ((Connection.lookup s3 k1).isSome = true) ∧
    Connection.lookup s4 k1 = none :=
  ⟨rfl, rfl, by decide, by decide, by decide, rfl, rfl, rfl⟩

/-- C3: when a key already holds an envelope whose timer is armed, a
second set cancels that timer before arming the new one: after the
replacement the prior timer is marked cancelled, firing it at any later
instant is a no-op, while firing the newly armed timer once the new ttl
has elapsed removes the entry. -/
theorem set_replacement_cancels_prior_timer
    (s : ConnState) (key : CacheKey) (value : JSVal) (ttl : Int)
    (c : LRUCache) (e0 : Envelope) (tid : Nat) (t0 : Timer) (d d2 : Int)
    (hc : s.cache = some c)
    (he : lruPeek c (Connection.generateKey key) = some e0)
    (htid : e0.timeoutId = some tid)
    (ht0 : s.timers[tid]? = some t0)
    (httl : ttl ≤ 2147483647)
    (hd2 : max ttl 1 ≤ d2) :
    ((Connection.set s key value ttl).2.timers[tid]? = some { t0 with cancelled := true }) ∧
    (Connection.fireTimer (Connection.advance (Connection.set s key value ttl).2 d) tid
       = Connection.advance (Connection.set s key value ttl).2 d) ∧
    (Connection.lookup
       (Connection.fireTimer (Connection.advance (Connection.set s key value ttl).2 d2)
         s.timers.length) key = none) := by
  have hnle : ¬ (ttl > 2147483647) := by omega
  have htlen : (clearTimeout s.timers tid).length = s.timers.length :=
    clearTimeout_length s.timers tid
  have hlt : tid < s.timers.length := (List.getElem?_eq_some_iff.mp ht0).1
  have hset : (Connection.set s key value ttl).2 =
      { s with
        cache := some (lruSet c (Connection.generateKey key)
          { item := serialize value s.settings.allowMixedContent,
            stored := s.now, ttl := ttl,
            timeoutId := some (clearTimeout s.timers tid).length }),
        timers := clearTimeout s.timers tid ++
          [{ key := (key.segment, key.id), fireAt := s.now + max ttl 1,
             cancelled := false, fired := false }] } := by
    simp [Connection.set, hc, he, htid, hnle]
  have h1 : (Connection.set s key value ttl).2.timers[tid]? = some { t0 with cancelled := true } := by
    rw [hset]
    show (clearTimeout s.timers tid ++ _)[tid]? = _
    rw [List.getElem?_append_left (htlen ▸ hlt)]
    exact clearTimeout_getElem_self s.timers tid t0 ht0
  refine ⟨h1, ?_, ?_⟩
  · unfold Connection.fireTimer
    rw [show (Connection.advance (Connection.set s key value ttl).2 d).timers[tid]?
          = some { t0 with cancelled := true } from by
        simpa [Connection.advance] using h1]
    simp
  · have hlen2 : (Connection.advance (Connection.set s key value ttl).2 d2).timers[s.timers.length]?
        = some { key := (key.segment, key.id), fireAt := s.now + max ttl 1,
                 cancelled := false, fired := false } := by
      rw [hset]
      show (clearTimeout s.timers tid ++ [_])[s.timers.length]? = _
      rw [← htlen]
      exact List.getElem?_concat_length _ _
    unfold Connection.fireTimer
    rw [hlen2]
    have hcond : ¬ (False ∨ False ∨
        (Connection.advance (Connection.set s key value ttl).2 d2).now < s.now + max ttl 1) := by
      rw [hset]
      simp [Connection.advance]
      exact ⟨le_trans (le_max_left _ _) hd2, le_trans (le_max_right _ _) hd2⟩
    simp only [Bool.false_eq_true, false_or] at hcond ⊢
    rw [if_neg (by simpa using hcond)]
    simp [Connection.drop, hset, Connection.advance, Connection.lookup, lruPeek_lruDel_self]

theorem set_replacement_witness :
    (replState.cache = some replStore ∧
     lruPeek replStore (Connection.generateKey ⟨"s", "1"⟩) = some replEnvelope ∧
     replEnvelope.timeoutId = some 0 ∧
     replState.timers[0]? = some replTimer ∧
     (200 : Int) ≤ 2147483647 ∧ max (200 : Int) 1 ≤ 300) ∧
    (((Connection.set replState ⟨"s", "1"⟩ (.str "b") 200).2.timers[0]?
        = some { replTimer with cancelled := true }) ∧
     (Connection.fireTimer
        (Connection.advance (Connection.set replState ⟨"s", "1"⟩ (.str "b") 200).2 100) 0
        = Connection.advance (Connection.set replState ⟨"s", "1"⟩ (.str "b") 200).2 100) ∧
     (Connection.lookup
        (Connection.fireTimer
          (Connection.advance (Connection.set replState ⟨"s", "1"⟩ (.str "b") 200).2 300)
          replState.timers.length) ⟨"s", "1"⟩ = none)) :=
  ⟨⟨rfl, rfl, rfl, rfl, by decide, by decide⟩,
   set_replacement_cancels_prior_timer replState ⟨"s", "1"⟩ (.str "b") 200 replStore
     replEnvelope 0 replTimer 100 300 rfl rfl rfl rfl (by decide) (by decide)⟩

/-- C6: on a started connection set rejects exactly the oversized ttl:
one past the maximum timer delay yields the invalid-ttl error with the
state untouched, the maximum itself succeeds, and no ttl at or below the
maximum (zero and negative values included) triggers the error. -/
theorem set_ttl_boundary (s : ConnState) (key : CacheKey) (value : JSVal)
    (c : LRUCache) (h : s.cache = some c) :
    Connection.set s key value 2147483648 = (.error .invalidTTL, s) ∧
    (Connection.set s key value 2147483647).1 = .ok () ∧
    (∀ ttl : Int, ttl ≤ 2147483647 → (Connection.set s key value ttl).1 = .ok ()) := by
  refine ⟨?_, ?_, ?_⟩
  · have hgt : (2147483648 : Int) > 2147483647 := by norm_num
    simp [Connection.set, h, hgt]
  · have hle : ¬ ((2147483647 : Int) > 2147483647) := by norm_num
    simp [Connection.set, h, hle]
  · intro ttl httl
    have hle : ¬ (ttl > 2147483647) := by omega
    simp [Connection.set, h, hle]

theorem set_ttl_boundary_witness :
    (Connection.start (initState defaults)).cache
      = some { max := 104857600, entries := [] } ∧
    Connection.set (Connection.start (initState defaults)) ⟨"s", "1"⟩ (.str "x") 2147483648
      = (.error .invalidTTL, Connection.start (initState defaults)) ∧
    (Connection.set (Connection.start (initState defaults)) ⟨"s", "1"⟩ (.str "x")
      2147483647).1 = .ok () :=
  ⟨rfl,
   (set_ttl_boundary (Connection.start (initState defaults)) ⟨"s", "1"⟩ (.str "x") _ rfl).1,
   (set_ttl_boundary (Connection.start (initState defaults)) ⟨"s", "1"⟩ (.str "x") _ rfl).2.1⟩

/-- C7: when the resident payload under a key cannot be deserialized,
get reports the bad-value-content error rather than a value or a clean
miss, and the envelope stays resident and unchanged under its key (the
read path performs no removal). -/
theorem get_corruption_preserves_entry (s : ConnState) (key : CacheKey)
    (c : LRUCache) (e : Envelope)
    (hc : s.cache = some c)
    (he : lruPeek c (Connection.generateKey key) = some e)
    (hbad : deserialize e.item = .error ()) :
    (Connection.get s key).1 = .error .badValueContent ∧
    Connection.lookup (Connection.get s key).2 key = some e := by
  obtain ⟨p, hfind, hp⟩ := Option.map_eq_some'.mp he
  have hpk := List.find?_some hfind
  have hpk2 : (fun e2 : String × Envelope => e2.1 == Connection.generateKey key) p = true := hpk
  have hget : lruGet c (Connection.generateKey key)
      = (some e,
         { c with entries := p :: c.entries.filter (fun e2 => !(e2.1 == Connection.generateKey key)) }) := by
    simp [lruGet, hfind, hp]
  have hpeek2 : lruPeek
      { c with entries := p :: c.entries.filter (fun e2 => !(e2.1 == Connection.generateKey key)) }
      (Connection.generateKey key) = some e := by
    show (List.find? (fun e2 => e2.1 == Connection.generateKey key)
      (p :: c.entries.filter (fun e2 => !(e2.1 == Connection.generateKey key)))).map
        (fun e2 => e2.2) = some e
    rw [@List.find?_cons_of_pos _ (fun e2 => e2.1 == Connection.generateKey key) p
      (c.entries.filter (fun e2 => !(e2.1 == Connection.generateKey key))) hpk2]
    simp [hp]
  constructor
  · simp [Connection.get, hc, hget, hbad]
  · simp [Connection.get, hc, hget, hbad, Connection.lookup, hpeek2]

theorem get_corruption_witness :
    ((corruptState.cache = some corruptStore ∧
      lruPeek corruptStore (Connection.generateKey ⟨"s", "1"⟩) = some corruptEnvelope ∧
      deserialize corruptEnvelope.item = .error ()) ∧
     ((Connection.get corruptState ⟨"s", "1"⟩).1 = .error .badValueContent ∧
      Connection.lookup (Connection.get corruptState ⟨"s", "1"⟩).2 ⟨"s", "1"⟩
        = some corruptEnvelope)) :=
  ⟨⟨rfl, rfl, rfl⟩,
   get_corruption_preserves_entry corruptState ⟨"s", "1"⟩ corruptStore corruptEnvelope
     rfl rfl rfl⟩

/-- C9 fails on the code in its read half: serialize does copy the
caller Buffer into a fresh allocation, so mutating the original after
set leaves the cached bytes intact; but deserialize returns the stored
Buffer itself, so the reference a caller gets back from get aliases the
store and writing through it rewrites the cached payload. -/
theorem get_result_aliases_store :
    let h0 : BufferHeap := ⟨[[1, 2, 3]]⟩
    let h1 := (serializeBuffer h0 0).1
    let storedRef := (serializeBuffer h0 0).2
    storedRef ≠ 0 ∧
    readBuffer h1 storedRef = [1, 2, 3] ∧
    readBuffer (writeBuffer h1 0 [9, 9, 9]) storedRef = [1, 2, 3] ∧
    deserializeBuffer storedRef = storedRef ∧
    readBuffer (writeBuffer h1 (deserializeBuffer storedRef) [9, 9, 9]) storedRef
      = [9, 9, 9] :=
  ⟨by decide, rfl, rfl, rfl, rfl⟩

mutual

/-- A pure value stringifies to a tree that parses back to the value. -/
theorem roundtripVal (v : JSVal) (h : isPure v = true) :
    ∃ j, jsonify v = some j ∧ jsonToJS j = v := by
  match v with
  | .null => exact ⟨.null, rfl, rfl⟩
  | .bool b => exact ⟨.bool b, rfl, rfl⟩
  | .num n => exact ⟨.num n, rfl, rfl⟩
  | .str s => exact ⟨.str s, rfl, rfl⟩
  | .undefined => simp [isPure] at h
  | .nan => simp [isPure] at h
  | .buffer bytes => simp [isPure] at h
  | .arr es =>
    have hes : isPureElems es = true := by simpa [isPure] using h
    have hrec := roundtripElems es hes
    exact ⟨.arr (jsonifyElems es), rfl, by simp [jsonToJS, jsonify, hrec]⟩
  | .obj fs =>
    have hfs : isPureFields fs = true := by simpa [isPure] using h
    have hrec := roundtripFields fs hfs
    exact ⟨.obj (jsonifyFields fs), rfl, by simp [jsonToJS, jsonify, hrec]⟩

/-- Elementwise round trip for arrays of pure values. -/
theorem roundtripElems (vs : List JSVal) (h : isPureElems vs = true) :
    jsonToJSElems (jsonifyElems vs) = vs := by
  match vs with
  | [] => rfl
  | v :: rest =>
    have hv : isPure v = true := by
      have hsplit := h
      simp [isPureElems] at hsplit
      exact hsplit.1
    have hrest : isPureElems rest = true := by
      have hsplit := h
      simp [isPureElems] at hsplit
      exact hsplit.2
    obtain ⟨j, hj, hback⟩ := roundtripVal v hv
    have hrec := roundtripElems rest hrest
    simp [jsonifyElems, hj, jsonToJSElems, hback, hrec]

/-- Fieldwise round trip for objects with pure values. -/
theorem roundtripFields (fs : List (String × JSVal)) (h : isPureFields fs = true) :
    jsonToJSFields (jsonifyFields fs) = fs := by
  match fs with
  | [] => rfl
  | (k, v) :: rest =>
    have hv : isPure v = true := by
      have hsplit := h
      simp [isPureFields] at hsplit
      exact hsplit.1
    have hrest : isPureFields rest = true := by
      have hsplit := h
      simp [isPureFields] at hsplit
      exact hsplit.2
    obtain ⟨j, hj, hback⟩ := roundtripVal v hv
    have hrec := roundtripFields rest hrest
    simp [jsonifyFields, hj, jsonToJSFields, hback, hrec]

end

/-- C4 amended: in default mode the Serializer round-trips every value
built only from null, booleans, numbers, strings, arrays and objects;
values containing NaN or a raw Buffer are also encoded without error but
do not round-trip (see the counterexample). -/
theorem serializer_roundtrip_pure (v : JSVal) (h : isPure v = true) :
    deserialize (serialize v false) = .ok v := by
  obtain ⟨j, hj, hback⟩ := roundtripVal v h
  have hser : serialize v false = .text j := by simp [serialize, hj]
  rw [hser]
  simp [deserialize, hback]

theorem serializer_roundtrip_pure_witness :
    isPure (.arr [.num 1, .str "a", .obj [("k", .bool true)]]) = true ∧
    deserialize (serialize (.arr [.num 1, .str "a", .obj [("k", .bool true)]]) false)
      = .ok (.arr [.num 1, .str "a", .obj [("k", .bool true)]]) :=
  ⟨rfl, serializer_roundtrip_pure _ rfl⟩

/-- C4 as stated fails: a Buffer and NaN are both encodable in default
mode (serialize yields a JSON text, not the undefined payload), yet
deserialize of the result returns the toJSON object form of the Buffer,
and null for NaN — not the original value. -/
theorem serializer_roundtrip_counterexample :
    (serialize (.buffer [1, 2]) false ≠ .undefined) ∧
    (deserialize (serialize (.buffer [1, 2]) false)
       = .ok (.obj [("type", .str "Buffer"), ("data", .arr [.num 1, .num 2])])) ∧
    (deserialize (serialize (.buffer [1, 2]) false) ≠ .ok (.buffer [1, 2])) ∧
    (serialize .nan false ≠ .undefined) ∧
    (deserialize (serialize .nan false) = .ok .null) ∧
    (deserialize (serialize .nan false) ≠ .ok .nan) := by
  refine ⟨?_, rfl, ?_, ?_, rfl, ?_⟩
  · exact fun hco => Payload.noConfusion hco
  · exact fun hco => JSVal.noConfusion (Except.ok.inj hco)
  · exact fun hco => Payload.noConfusion hco
  · exact fun hco => JSVal.noConfusion (Except.ok.inj hco)

/-- Concatenation around a separator character is injective on
separator-free prefixes. -/
theorem sepChar_append_inj : ∀ (l1 l2 r1 r2 : List Char),
    ':' ∉ l1 → ':' ∉ l2 → l1 ++ ':' :: r1 = l2 ++ ':' :: r2 → l1 = l2 ∧ r1 = r2 := by
  intro l1
  induction l1 with
  | nil =>
    intro l2 r1 r2 h1 h2 heq
    cases l2 with
    | nil => simpa using heq
    | cons b bs =>
      simp at heq
      exact absurd (heq.1 ▸ List.mem_cons_self b bs) h2
  | cons a as ih =>
    intro l2 r1 r2 h1 h2 heq
    cases l2 with
    | nil =>
      simp at heq
      exact absurd (heq.1 ▸ List.mem_cons_self a as) h1
    | cons b bs =>
      simp at heq
      obtain ⟨hab, hrest⟩ := heq
      have h1b : ':' ∉ as := fun hm => h1 (List.mem_cons_of_mem _ hm)
      have h2b : ':' ∉ bs := fun hm => h2 (List.mem_cons_of_mem _ hm)
      obtain ⟨hl, hr⟩ := ih bs r1 r2 h1b h2b hrest
      exact ⟨by rw [hab, hl], hr⟩

/-- C5 amended: generateKey is the stable concatenation of segment and
id around a colon, and it is injective as long as segments are
colon-free; with only the validateSegmentName contract (nonempty, no NUL
character) distinct pairs can collide (see the counterexample). -/
theorem generateKey_injective_on_colonfree (s1 i1 s2 i2 : String)
    (h1 : ':' ∉ s1.data) (h2 : ':' ∉ s2.data)
    (heq : Connection.generateKey ⟨s1, i1⟩ = Connection.generateKey ⟨s2, i2⟩) :
    s1 = s2 ∧ i1 = i2 := by
  have hd : s1.data ++ ':' :: i1.data = s2.data ++ ':' :: i2.data := by
    have hgen := congrArg String.data heq
    simpa [Connection.generateKey, String.data_append] using hgen
  obtain ⟨ha, hb⟩ := sepChar_append_inj _ _ _ _ h1 h2 hd
  constructor
  · cases s1; cases s2; exact congrArg String.mk ha
  · cases i1; cases i2; exact congrArg String.mk hb

theorem generateKey_injective_witness :
    (':' ∉ ("a" : String).data ∧ ':' ∉ ("x" : String).data ∧
     Connection.generateKey ⟨"a", "b"⟩ = Connection.generateKey ⟨"a", "b"⟩) ∧
    ("a" : String) = "a" ∧ ("b" : String) = "b" :=
  ⟨⟨by decide, by decide, rfl⟩,
   generateKey_injective_on_colonfree "a" "b" "a" "b" (by decide) (by decide) rfl⟩

/-- C5 as stated fails: two distinct (segment, id) pairs, both of whose
segments pass validateSegmentName, collide under generateKey because the
colon separator may occur inside either field. -/
theorem generateKey_collision :
    Connection.validateSegmentName "a:b" = none ∧
    Connection.validateSegmentName "a" = none ∧
    (CacheKey.mk "a:b" "c" ≠ CacheKey.mk "a" "b:c") ∧
    Connection.generateKey ⟨"a:b", "c"⟩ = Connection.generateKey ⟨"a", "b:c"⟩ := by
  refine ⟨?_, ?_, by decide, rfl⟩ <;> rfl

end CatboxMemoryLru
